import Mathlib

/-!
WasteLess API — Inventory Consolidation & Recipe Matching Engine.

A shallow embedding of the core logic of `src/main.py` of the WasteLess-API
repository, together with proofs of the specification's claims about it.

Modelling conventions:
* Python strings are modelled as `List Char` (`Str`).  Python's `str.strip()`
  and `str.lower()` are modelled over the ASCII fragment: `pyIsSpace` covers
  Python's default ASCII whitespace set and `pyLowerChar` the ASCII case map.
* Quantities are Python floats used only through `+`, `-` and comparisons with
  `0`; they are modelled as exact rationals (`Rat`).
* Dates travel through the code as ISO-8601 strings (`str(date)`), whose
  lexicographic order coincides with chronological order; they are modelled as
  integer day numbers (`Int`), with `timedelta(days=d)` as integer addition.
* The Supabase `food_stock` table is modelled as a list of rows plus a counter
  supplying the auto-generated primary key for inserts.  `.eq` filters,
  `.limit(1)` lookups, `update` and `delete` are modelled by `List.find?`,
  `List.map` and `List.filter` over the rows, mirroring relational semantics.
-/

namespace WasteLess

/-- Python strings, modelled as lists of characters. -/
abbrev Str := List Char

/-- The characters removed by Python's default `str.strip()` (ASCII fragment):
space, tab, newline, carriage return, vertical tab, form feed. -/
def pyIsSpace (c : Char) : Bool :=
  c = ' ' || c = '\t' || c = '\n' || c = '\r' || c = '\x0b' || c = '\x0c'

/-- Python's `str.lower()` on one character (ASCII fragment): maps `A`–`Z` to
`a`–`z` and leaves every other character unchanged. -/
def pyLowerChar (c : Char) : Char :=
  if 65 ≤ c.toNat ∧ c.toNat ≤ 90 then Char.ofNat (c.toNat + 32) else c

/-- Python's `s.strip()`: drop leading and trailing whitespace. -/
def pyStrip (s : Str) : Str :=
  ((s.dropWhile pyIsSpace).reverse.dropWhile pyIsSpace).reverse

/-- `normalize_name` from `src/main.py`: `s.strip().lower()`. -/
def normalize_name (s : Str) : Str :=
  (pyStrip s).map pyLowerChar

/-- One row of the `food_stock` table. -/
structure FoodRow where
  id : Nat
  user_id : Nat
  name : Str
  name_norm : Str
  quantity : Rat
  unit : Str
  expiration_date : Int
  deriving DecidableEq, Repr

/-- The request model `FoodItemCreate` from `src/main.py`. -/
structure FoodItemCreate where
  name : Str
  quantity : Rat
  unit : Str
  expiration_date : Int
  deriving DecidableEq, Repr

/-- The `food_stock` table: its rows plus the next auto-generated primary key. -/
structure StockState where
  nextId : Nat
  rows : List FoodRow
  deriving DecidableEq, Repr

/-- The composite-key match used by `find_existing_food_row`'s query:
`.eq("user_id", u).eq("name_norm", nn).eq("unit", unit).eq("expiration_date", d)`. -/
def rowKeyMatch (uid : Nat) (nn u : Str) (d : Int) (r : FoodRow) : Bool :=
  r.user_id == uid && r.name_norm == nn && r.unit == u && r.expiration_date == d

/-- `find_existing_food_row` from `src/main.py`: first row matching the
composite key `(user_id, normalize_name(name), unit, expiration_date)`. -/
def find_existing_food_row (st : StockState) (uid : Nat) (name u : Str) (d : Int) :
    Option FoodRow :=
  st.rows.find? (rowKeyMatch uid (normalize_name name) u d)

/-- The status string returned by `add_or_update_food_item`: `"created"` for an
insert, `"updated"` for a merge into an existing row (the spec calls the latter
action `merged`). -/
inductive AddStatus where
  | created
  | updated
  deriving DecidableEq, Repr

/-- `add_or_update_food_item` from `src/main.py`.  If a row with the composite
key exists, update its quantity to `existing.quantity + item.quantity`
(the update is filtered by `.eq("id", existing["id"]).eq("user_id", user_id)`);
otherwise insert a new row carrying the display name and the normalized name.
No validation of any field is performed. -/
def add_or_update_food_item (st : StockState) (uid : Nat) (item : FoodItemCreate) :
    StockState × AddStatus :=
  match find_existing_food_row st uid item.name item.unit item.expiration_date with
  | some existing =>
      (⟨st.nextId,
        st.rows.map fun r =>
          if r.id == existing.id && r.user_id == uid then
            { r with quantity := existing.quantity + item.quantity } else r⟩,
       AddStatus.updated)
  | none =>
      (⟨st.nextId + 1,
        st.rows ++ [⟨st.nextId, uid, item.name, normalize_name item.name,
                     item.quantity, item.unit, item.expiration_date⟩]⟩,
       AddStatus.created)

/-- `get_food_item_detail` from `src/main.py`: first row with
`.eq("user_id", uid).eq("id", item_id)`. -/
def get_food_item_detail (st : StockState) (uid item_id : Nat) : Option FoodRow :=
  st.rows.find? fun r => r.user_id == uid && r.id == item_id

/-- Result of the `consume_item` route: 404 when no row is found; otherwise
either the row is deleted (`removed`) or its quantity is updated, returning the
updated row data. -/
inductive ConsumeResult where
  | notFound
  | removed
  | updatedData (data : List FoodRow)
  deriving DecidableEq, Repr

/-- `consume_item` from `src/main.py`: look the row up by `(user_id, id)`,
404 if absent; compute `new_qty = quantity - body.quantity`; delete the row if
`new_qty <= 0`, else persist `new_qty` and return the updated row data.
`body.quantity` is not validated. -/
def consume_item (st : StockState) (uid item_id : Nat) (q : Rat) :
    StockState × ConsumeResult :=
  match get_food_item_detail st uid item_id with
  | none => (st, ConsumeResult.notFound)
  | some item =>
      if item.quantity - q ≤ 0 then
        (⟨st.nextId, st.rows.filter fun r => !(r.id == item_id && r.user_id == uid)⟩,
         ConsumeResult.removed)
      else
        (⟨st.nextId,
          st.rows.map fun r =>
            if r.id == item_id && r.user_id == uid then
              { r with quantity := item.quantity - q } else r⟩,
         ConsumeResult.updatedData
           ((st.rows.map fun r =>
              if r.id == item_id && r.user_id == uid then
                { r with quantity := item.quantity - q } else r).filter
             fun r => r.id == item_id && r.user_id == uid))

/-- `expiring_items` from `src/main.py`: rows of the user with
`today <= expiration_date <= today + timedelta(days=days)`, ordered by
ascending expiration date. -/
def expiring_items (st : StockState) (uid : Nat) (today days : Int) : List FoodRow :=
  (st.rows.filter fun r =>
      r.user_id == uid && decide (today ≤ r.expiration_date)
        && decide (r.expiration_date ≤ today + days)).mergeSort
    fun a b => decide (a.expiration_date ≤ b.expiration_date)

/-- The route parameter default `days: int = 5` of the `expiring_items` route. -/
def expiring_items_default (st : StockState) (uid : Nat) (today : Int) : List FoodRow :=
  expiring_items st uid today 5

/-- One row of the `recipes` table. -/
structure RecipeRow where
  id : Nat
  user_id : Nat
  title : Str
  description : Str
  deriving DecidableEq, Repr

/-- One row of the `recipe_ingredients` table. -/
structure RecipeIngredientRow where
  recipe_id : Nat
  name : Str
  name_norm : Str
  quantity : Rat
  unit : Str
  deriving DecidableEq, Repr

/-- The tables read by `compute_recipe_suggestions`. -/
structure DB where
  food_stock : List FoodRow
  recipes : List RecipeRow
  recipe_ingredients : List RecipeIngredientRow
  deriving DecidableEq, Repr

/-- `get_all_food_items` from `src/main.py`: every `food_stock` row of the user. -/
def get_all_food_items (db : DB) (uid : Nat) : List FoodRow :=
  db.food_stock.filter fun r => r.user_id == uid

/-- Membership test `ingredient_name in user_food_items`, where
`user_food_items` is the dict `{item["name_norm"]: item}` over the user's
inventory: a key is present iff some inventory row carries that `name_norm`. -/
def inventoryHasNorm (db : DB) (uid : Nat) (nn : Str) : Bool :=
  (get_all_food_items db uid).any fun r => r.name_norm == nn

/-- The `recipe_ingredients` query `.eq("recipe_id", recipe_id)`. -/
def ingredientsFor (db : DB) (rid : Nat) : List RecipeIngredientRow :=
  db.recipe_ingredients.filter fun i => i.recipe_id == rid

/-- An element of the `suggestions` list built by `compute_recipe_suggestions`:
either a feasible report carrying every ingredient display name, or a report
carrying the missing ingredient display names. -/
inductive RecipeSuggestion where
  | feasible (title description : Str) (ingredients : List Str)
  | missing (title description : Str) (missing_ingredients : List Str)
  deriving DecidableEq, Repr

/-- `compute_recipe_suggestions` from `src/main.py`.  For each of the user's
recipes: skip it when it has no ingredient rows; otherwise collect the display
names of ingredients whose `name_norm` is not in the inventory dict; emit a
feasible report when none are missing, else a missing-ingredients report. -/
def compute_recipe_suggestions (db : DB) (uid : Nat) : List RecipeSuggestion :=
  (db.recipes.filter fun r => r.user_id == uid).filterMap fun recipe =>
    let ings := ingredientsFor db recipe.id
    if ings.isEmpty then
      none
    else
      let missing_ingredients :=
        (ings.filter fun i => !inventoryHasNorm db uid i.name_norm).map fun i => i.name
      if missing_ingredients.isEmpty then
        some (RecipeSuggestion.feasible recipe.title recipe.description
          (ings.map fun i => i.name))
      else
        some (RecipeSuggestion.missing recipe.title recipe.description missing_ingredients)

/-! ## Specification-side definitions

The following definitions are written from the specification's words, not from
the code; they exist only to be compared with `compute_recipe_suggestions` in
the refinement theorem for the matcher claim. -/

/-- The set (as a list of keys) of normalized names of the user's inventory;
only `name_norm` is extracted — quantity and unit do not enter. -/
def specInventoryNorms (db : DB) (uid : Nat) : List Str :=
  (db.food_stock.filter fun r => r.user_id == uid).map fun r => r.name_norm

/-- The suggestion the specification prescribes for a single recipe, given the
inventory's normalized-name set: a recipe with zero ingredient rows yields
nothing; if every ingredient's stored normalized name is a member of the set,
a feasible report listing all ingredient display names; otherwise a report of
exactly the display names of the missing ingredients. -/
def specSuggestionFor (norms : List Str) (title description : Str)
    (ings : List RecipeIngredientRow) : Option RecipeSuggestion :=
  if ings = [] then
    none
  else if ings.all fun i => norms.contains i.name_norm then
    some (RecipeSuggestion.feasible title description (ings.map fun i => i.name))
  else
    some (RecipeSuggestion.missing title description
      ((ings.filter fun i => !norms.contains i.name_norm).map fun i => i.name))

/-- A database whose inventory rows have had quantity and unit rewritten by
arbitrary functions, all other data unchanged — used to state that the matcher
never compares quantities or units. -/
def reviseQuantitiesUnits (db : DB) (qf : FoodRow → Rat) (uf : FoodRow → Str) : DB :=
  { db with food_stock := db.food_stock.map fun r => { r with quantity := qf r, unit := uf r } }

/-! ## Character-level facts about the normalizer -/

theorem charToNat_ofNat_of_lt {n : Nat} (h : n < 55296) : (Char.ofNat n).toNat = n := by
  have hv : n.isValidChar := Or.inl h
  simp [Char.ofNat, hv, Char.ofNatAux, Char.toNat, UInt32.toNat]

theorem pyLowerChar_toNat (c : Char) :
    (pyLowerChar c).toNat =
      if 65 ≤ c.toNat ∧ c.toNat ≤ 90 then c.toNat + 32 else c.toNat := by
  unfold pyLowerChar
  split
  case isTrue h => exact charToNat_ofNat_of_lt (by omega)
  case isFalse h => rfl

theorem char_eq_iff_toNat {c d : Char} : c = d ↔ c.toNat = d.toNat := by
  constructor
  · intro h; rw [h]
  · intro h
    apply Char.ext
    rw [← UInt32.mk_toBitVec_eq c.val, ← UInt32.mk_toBitVec_eq d.val]
    congr 1
    exact BitVec.eq_of_toNat_eq h

theorem pyIsSpace_iff_toNat (c : Char) :
    pyIsSpace c = true ↔
      c.toNat = 32 ∨ c.toNat = 9 ∨ c.toNat = 10 ∨ c.toNat = 13 ∨
      c.toNat = 11 ∨ c.toNat = 12 := by
  simp only [pyIsSpace, Bool.or_eq_true, decide_eq_true_eq]
  constructor
  · rintro (((((h | h) | h) | h) | h) | h) <;>
      simp [char_eq_iff_toNat.mp h]
  · intro h
    rcases h with h | h | h | h | h | h
    · exact Or.inl (Or.inl (Or.inl (Or.inl (Or.inl (char_eq_iff_toNat.mpr (by simpa using h))))))
    · exact Or.inl (Or.inl (Or.inl (Or.inl (Or.inr (char_eq_iff_toNat.mpr (by simpa using h))))))
    · exact Or.inl (Or.inl (Or.inl (Or.inr (char_eq_iff_toNat.mpr (by simpa using h)))))
    · exact Or.inl (Or.inl (Or.inr (char_eq_iff_toNat.mpr (by simpa using h))))
    · exact Or.inl (Or.inr (char_eq_iff_toNat.mpr (by simpa using h)))
    · exact Or.inr (char_eq_iff_toNat.mpr (by simpa using h))

theorem pyIsSpace_pyLowerChar (c : Char) : pyIsSpace (pyLowerChar c) = pyIsSpace c := by
  by_cases h : 65 ≤ c.toNat ∧ c.toNat ≤ 90
  · have ht : (pyLowerChar c).toNat = c.toNat + 32 := by rw [pyLowerChar_toNat, if_pos h]
    have h1 : pyIsSpace (pyLowerChar c) = false := by
      rw [Bool.eq_false_iff]
      intro hs
      have := (pyIsSpace_iff_toNat _).mp hs
      omega
    have h2 : pyIsSpace c = false := by
      rw [Bool.eq_false_iff]
      intro hs
      have := (pyIsSpace_iff_toNat _).mp hs
      omega
    rw [h1, h2]
  · have : pyLowerChar c = c := by unfold pyLowerChar; rw [if_neg h]
    rw [this]

theorem pyLowerChar_idem (c : Char) : pyLowerChar (pyLowerChar c) = pyLowerChar c := by
  by_cases h : 65 ≤ c.toNat ∧ c.toNat ≤ 90
  · have ht : (pyLowerChar c).toNat = c.toNat + 32 := by rw [pyLowerChar_toNat, if_pos h]
    show (if _ then _ else _) = _
    rw [if_neg (by omega)]
  · have hc : pyLowerChar c = c := by unfold pyLowerChar; rw [if_neg h]
    rw [hc, hc]

/-! ## String-level facts about the normalizer -/

theorem pyStrip_eq_rdrop (s : Str) :
    pyStrip s = (s.dropWhile pyIsSpace).rdropWhile pyIsSpace := by
  simp [pyStrip, List.rdropWhile]

theorem dropWhile_pyStrip (s : Str) :
    (pyStrip s).dropWhile pyIsSpace = pyStrip s := by
  rw [pyStrip_eq_rdrop]
  have hsfx : (s.dropWhile pyIsSpace).reverse.dropWhile pyIsSpace <:+
      (s.dropWhile pyIsSpace).reverse := List.dropWhile_suffix pyIsSpace
  obtain ⟨u, hu⟩ := hsfx
  have ht : (s.dropWhile pyIsSpace).rdropWhile pyIsSpace ++ u.reverse = s.dropWhile pyIsSpace := by
    have hrev := congrArg List.reverse hu
    simpa [List.rdropWhile] using hrev
  rcases hm : (s.dropWhile pyIsSpace).rdropWhile pyIsSpace with _ | ⟨a, m⟩
  · simp
  · have hdw : (s.dropWhile pyIsSpace).dropWhile pyIsSpace = s.dropWhile pyIsSpace :=
      List.dropWhile_idempotent _ _
    rw [hm] at ht
    rw [← ht] at hdw
    have ha := List.dropWhile_eq_self_iff.mp hdw (by simp)
    simp only [List.cons_append, List.get_eq_getElem, List.getElem_cons_zero] at ha
    rw [List.dropWhile_cons, if_neg (by simp [ha])]

theorem pyStrip_idem (s : Str) : pyStrip (pyStrip s) = pyStrip s := by
  rw [pyStrip_eq_rdrop (pyStrip s), dropWhile_pyStrip, pyStrip_eq_rdrop,
    List.rdropWhile_idempotent]

theorem pyStrip_append_space (s b : Str) (hb : ∀ c ∈ b, pyIsSpace c) :
    pyStrip (s ++ b) = pyStrip s := by
  rw [pyStrip_eq_rdrop, pyStrip_eq_rdrop, List.dropWhile_append]
  split
  case isTrue h =>
    rw [List.isEmpty_iff] at h
    rw [h]
    have hb' : b.dropWhile pyIsSpace = [] := by
      rw [List.dropWhile_eq_nil_iff]
      exact hb
    simp [hb']
  case isFalse h =>
    simp only [List.rdropWhile, List.reverse_append]
    rw [List.dropWhile_append_of_pos (by intro a ha; exact hb a (List.mem_reverse.mp ha))]

theorem pyStrip_space_append (a s : Str) (ha : ∀ c ∈ a, pyIsSpace c) :
    pyStrip (a ++ s) = pyStrip s := by
  unfold pyStrip
  rw [List.dropWhile_append_of_pos ha]

theorem pyStrip_pad (a s b : Str) (ha : ∀ c ∈ a, pyIsSpace c) (hb : ∀ c ∈ b, pyIsSpace c) :
    pyStrip (a ++ s ++ b) = pyStrip s := by
  rw [List.append_assoc, pyStrip_space_append a (s ++ b) ha, pyStrip_append_space s b hb]

theorem dropWhile_map_pyLower (l : Str) :
    (l.map pyLowerChar).dropWhile pyIsSpace = (l.dropWhile pyIsSpace).map pyLowerChar := by
  have hfun : (pyIsSpace ∘ pyLowerChar) = pyIsSpace := funext pyIsSpace_pyLowerChar
  rw [List.dropWhile_map, hfun]

theorem pyStrip_map_pyLower (s : Str) :
    pyStrip (s.map pyLowerChar) = (pyStrip s).map pyLowerChar := by
  unfold pyStrip
  rw [dropWhile_map_pyLower, ← List.map_reverse, dropWhile_map_pyLower, ← List.map_reverse]

theorem normalize_name_map_lower (s : Str) :
    normalize_name (s.map pyLowerChar) = normalize_name s := by
  unfold normalize_name
  rw [pyStrip_map_pyLower, List.map_map]
  congr 1
  funext c
  exact pyLowerChar_idem c

theorem normalize_name_idem (s : Str) :
    normalize_name (normalize_name s) = normalize_name s := by
  show normalize_name ((pyStrip s).map pyLowerChar) = normalize_name s
  rw [normalize_name_map_lower]
  unfold normalize_name
  rw [pyStrip_idem]

/-! ## Generic list helper lemmas -/

theorem filterMap_fun_congr {α β : Type} (l : List α) {f g : α → Option β}
    (h : ∀ a, f a = g a) : l.filterMap f = l.filterMap g :=
  congrArg (fun f => List.filterMap f l) (funext h)

theorem find?_of_filter_eq_singleton {α : Type} {p : α → Bool} {l : List α} {r : α}
    (h : l.filter p = [r]) : l.find? p = some r := by
  induction l with
  | nil => simp at h
  | cons a t ih =>
    rw [List.filter_cons] at h
    by_cases hp : p a
    · rw [if_pos hp] at h
      rw [List.cons.injEq] at h
      rw [List.find?_cons_of_pos _ hp, h.1]
    · rw [if_neg hp] at h
      rw [List.find?_cons_of_neg _ hp]
      exact ih h

/-! ## Reduction lemmas for the consolidator and for consumption -/

theorem add_of_find_none {st : StockState} {uid : Nat} {item : FoodItemCreate}
    (hfind : find_existing_food_row st uid item.name item.unit item.expiration_date = none) :
    add_or_update_food_item st uid item =
      (⟨st.nextId + 1,
        st.rows ++ [⟨st.nextId, uid, item.name, normalize_name item.name,
                     item.quantity, item.unit, item.expiration_date⟩]⟩,
       AddStatus.created) := by
  unfold add_or_update_food_item
  rw [hfind]

theorem add_of_find_some {st : StockState} {uid : Nat} {item : FoodItemCreate}
    {ex : FoodRow}
    (hfind : find_existing_food_row st uid item.name item.unit item.expiration_date = some ex) :
    add_or_update_food_item st uid item =
      (⟨st.nextId,
        st.rows.map fun r =>
          if r.id == ex.id && r.user_id == uid then
            { r with quantity := ex.quantity + item.quantity } else r⟩,
       AddStatus.updated) := by
  unfold add_or_update_food_item
  rw [hfind]

theorem consume_of_detail_none {st : StockState} {uid item_id : Nat} {q : Rat}
    (hdet : get_food_item_detail st uid item_id = none) :
    consume_item st uid item_id q = (st, ConsumeResult.notFound) := by
  unfold consume_item
  rw [hdet]

theorem consume_of_detail_some {st : StockState} {uid item_id : Nat} (q : Rat)
    {it : FoodRow} (hdet : get_food_item_detail st uid item_id = some it) :
    consume_item st uid item_id q =
      if it.quantity - q ≤ 0 then
        (⟨st.nextId, st.rows.filter fun r => !(r.id == item_id && r.user_id == uid)⟩,
         ConsumeResult.removed)
      else
        (⟨st.nextId,
          st.rows.map fun r =>
            if r.id == item_id && r.user_id == uid then
              { r with quantity := it.quantity - q } else r⟩,
         ConsumeResult.updatedData
           ((st.rows.map fun r =>
              if r.id == item_id && r.user_id == uid then
                { r with quantity := it.quantity - q } else r).filter
             fun r => r.id == item_id && r.user_id == uid)) := by
  unfold consume_item
  rw [hdet]

/-! ## Claim theorems -/

/-- C9: `normalize_name` is the pure total function `s.strip().lower()` —
exactly trimming plus lowercasing and nothing else; it is idempotent
(`normalize(normalize(x)) = normalize(x)`); strings differing only in
leading/trailing whitespace normalize alike; strings differing only in letter
case normalize alike; and in particular
`normalize(" Milk ") = normalize("milk")`. -/
theorem C9_normalize_name_idempotent_insensitive :
    (∀ s : Str, normalize_name s = (pyStrip s).map pyLowerChar) ∧
    (∀ s : Str, normalize_name (normalize_name s) = normalize_name s) ∧
    (∀ a s b : Str, (∀ c ∈ a, pyIsSpace c) → (∀ c ∈ b, pyIsSpace c) →
      normalize_name (a ++ s ++ b) = normalize_name s) ∧
    (∀ s t : Str, s.map pyLowerChar = t.map pyLowerChar →
      normalize_name s = normalize_name t) ∧
    normalize_name (" Milk ".toList) = normalize_name ("milk".toList) := by
  refine ⟨fun s => rfl, normalize_name_idem, ?_, ?_, by decide⟩
  · intro a s b ha hb
    unfold normalize_name
    rw [pyStrip_pad a s b ha hb]
  · intro s t h
    rw [← normalize_name_map_lower s, h, normalize_name_map_lower]

/-- Witness for C9: padding `"Milk"` with spaces does not change its
normalized key. -/
theorem C9_witness :
    normalize_name ([' '] ++ "Milk".toList ++ [' ']) = normalize_name ("Milk".toList) :=
  C9_normalize_name_idempotent_insensitive.2.2.1 [' '] ("Milk".toList) [' ']
    (by decide) (by decide)

/-- C5: `expiring_items` returns exactly (as a permutation of the filtered
table) the user's rows with `today ≤ expiration_date ≤ today + days`, in
ascending expiration-date order; a negative `days` yields `[]` rather than an
error; and the route's `days` parameter defaults to 5. -/
theorem C5_expiring_items_window (st : StockState) (uid : Nat) (today days : Int) :
    (∀ r : FoodRow, r ∈ expiring_items st uid today days ↔
      r ∈ st.rows ∧ r.user_id = uid ∧ today ≤ r.expiration_date ∧
        r.expiration_date ≤ today + days) ∧
    List.Perm (expiring_items st uid today days)
      (st.rows.filter fun r =>
        r.user_id == uid && decide (today ≤ r.expiration_date)
          && decide (r.expiration_date ≤ today + days)) ∧
    (expiring_items st uid today days).Pairwise
      (fun a b => a.expiration_date ≤ b.expiration_date) ∧
    (days < 0 → expiring_items st uid today days = []) ∧
    expiring_items_default st uid today = expiring_items st uid today 5 := by
  refine ⟨?_, ?_, ?_, ?_, rfl⟩
  · intro r
    unfold expiring_items
    rw [List.mem_mergeSort, List.mem_filter]
    simp [Bool.and_eq_true, decide_eq_true_eq, and_assoc]
  · exact List.mergeSort_perm _ _
  · have hs : (expiring_items st uid today days).Pairwise
        (fun a b : FoodRow =>
          decide (a.expiration_date ≤ b.expiration_date) = true) := by
      unfold expiring_items
      exact @List.sorted_mergeSort FoodRow
        (fun a b : FoodRow => decide (a.expiration_date ≤ b.expiration_date))
        (fun a b c hab hbc => by
          simp only [decide_eq_true_eq] at *
          omega)
        (fun a b => by
          simp only [Bool.or_eq_true, decide_eq_true_eq]
          exact Int.le_total _ _)
        (st.rows.filter fun r =>
          r.user_id == uid && decide (today ≤ r.expiration_date)
            && decide (r.expiration_date ≤ today + days))
    exact hs.imp (by intro a b h; simpa using h)
  · intro hneg
    unfold expiring_items
    have hf : (st.rows.filter fun r =>
        r.user_id == uid && decide (today ≤ r.expiration_date)
          && decide (r.expiration_date ≤ today + days)) = [] := by
      rw [List.filter_eq_nil_iff]
      intro a _
      intro hcontra
      simp only [Bool.and_eq_true, decide_eq_true_eq] at hcontra
      omega
    rw [hf, List.mergeSort_nil]

/-- Witness for C5: with a negative `days` the query returns the empty list. -/
theorem C5_witness :
    expiring_items ⟨1, [⟨0, 1, ['a'], ['a'], 1, ['g'], 3⟩]⟩ 1 3 (-1) = [] :=
  (C5_expiring_items_window ⟨1, [⟨0, 1, ['a'], ['a'], 1, ['g'], 3⟩]⟩ 1 3 (-1)).2.2.2.1
    (by decide)

/-- C3: for an existing lot `r` (the unique row with the user's id and the lot
id), `consume` with quantity `q` deletes the lot and reports `removed` when
`r.quantity - q ≤ 0`; otherwise it persists `r.quantity - q` and returns the
updated lot; and in neither case does the operation leave a newly-written
quantity `≤ 0` (every row of the result is either positive or an untouched row
of the previous state). -/
theorem C3_consume_floor (st : StockState) (uid item_id : Nat) (q : Rat) (r : FoodRow)
    (hu : st.rows.filter (fun x => x.user_id == uid && x.id == item_id) = [r]) :
    (r.quantity - q ≤ 0 →
      (consume_item st uid item_id q).2 = ConsumeResult.removed ∧
      ∀ x ∈ (consume_item st uid item_id q).1.rows, ¬(x.id = item_id ∧ x.user_id = uid)) ∧
    (0 < r.quantity - q →
      (consume_item st uid item_id q).2 =
        ConsumeResult.updatedData [{ r with quantity := r.quantity - q }] ∧
      { r with quantity := r.quantity - q } ∈ (consume_item st uid item_id q).1.rows) ∧
    (∀ x ∈ (consume_item st uid item_id q).1.rows, 0 < x.quantity ∨ x ∈ st.rows) := by
  have hdet : get_food_item_detail st uid item_id = some r :=
    find?_of_filter_eq_singleton hu
  have hc := consume_of_detail_some q hdet
  have hrmem : r ∈ st.rows := by
    have : r ∈ st.rows.filter (fun x => x.user_id == uid && x.id == item_id) := by
      rw [hu]; exact List.mem_singleton.mpr rfl
    exact List.mem_of_mem_filter this
  have hdet2 : st.rows.find? (fun x => x.user_id == uid && x.id == item_id) = some r := hdet
  have hpr := List.find?_some hdet2
  simp only [Bool.and_eq_true, beq_iff_eq] at hpr
  have hswap : st.rows.filter (fun x => x.id == item_id && x.user_id == uid) = [r] := by
    rw [← hu]
    apply List.filter_congr
    intro x _
    exact Bool.and_comm _ _
  refine ⟨?_, ?_, ?_⟩
  · intro hle
    rw [hc, if_pos hle]
    refine ⟨rfl, ?_⟩
    intro x hx
    rw [List.mem_filter] at hx
    rintro ⟨h1, h2⟩
    have hx2 := hx.2
    rw [h1, h2] at hx2
    simp at hx2
  · intro hgt
    have hle : ¬(r.quantity - q ≤ 0) := not_le.mpr hgt
    rw [hc, if_neg hle]
    constructor
    · show ConsumeResult.updatedData _ = _
      congr 1
      rw [List.filter_map]
      have hpf : ((fun x : FoodRow => x.id == item_id && x.user_id == uid) ∘
          (fun x : FoodRow =>
            if x.id == item_id && x.user_id == uid then
              { x with quantity := r.quantity - q } else x)) =
          fun x : FoodRow => x.id == item_id && x.user_id == uid := by
        funext x
        by_cases hx : (x.id == item_id && x.user_id == uid) = true
        · simp only [Function.comp_apply, if_pos hx]
        · simp only [Function.comp_apply, if_neg hx]
      rw [hpf, hswap]
      simp only [List.map_cons, List.map_nil]
      congr 1
      rw [if_pos (by simp [hpr.1, hpr.2])]
    · show _ ∈ List.map _ _
      apply List.mem_map.mpr
      refine ⟨r, hrmem, ?_⟩
      rw [if_pos (by simp [hpr.1, hpr.2])]
  · intro x hx
    rw [hc] at hx
    by_cases hle : r.quantity - q ≤ 0
    · rw [if_pos hle] at hx
      exact Or.inr (List.mem_of_mem_filter hx)
    · rw [if_neg hle] at hx
      obtain ⟨y, hy, hxy⟩ := List.mem_map.mp hx
      by_cases hyc : (y.id == item_id && y.user_id == uid) = true
      · rw [if_pos hyc] at hxy
        rw [← hxy]
        exact Or.inl (not_le.mp hle)
      · rw [if_neg hyc] at hxy
        rw [← hxy]
        exact Or.inr hy

/-- Witness for C3: for a lot of quantity 2, consuming 3 removes the lot. -/
theorem C3_witness :
    (consume_item ⟨1, [⟨0, 1, ['a'], ['a'], 2, ['g'], 9⟩]⟩ 1 0 3).2 =
      ConsumeResult.removed :=
  ((C3_consume_floor ⟨1, [⟨0, 1, ['a'], ['a'], 2, ['g'], 9⟩]⟩ 1 0 3
      ⟨0, 1, ['a'], ['a'], 2, ['g'], 9⟩ (by decide)).1 (by norm_num)).1

/-- C8 (amended): `consume` performs no positivity check on the requested
quantity — whenever a lot with the given id exists for the user, the call never
fails, for any `q` whatsoever; it fails with `NotFound`, leaving the stored
state unchanged, exactly when no row with that id belongs to the calling user
(absent id, or id owned by a different user). -/
theorem C8_consume_notfound_no_positivity (st : StockState) (uid item_id : Nat) (q : Rat) :
    (get_food_item_detail st uid item_id = none →
      consume_item st uid item_id q = (st, ConsumeResult.notFound)) ∧
    ((∀ x ∈ st.rows, x.id = item_id → x.user_id ≠ uid) →
      consume_item st uid item_id q = (st, ConsumeResult.notFound)) ∧
    (∀ r, get_food_item_detail st uid item_id = some r →
      (consume_item st uid item_id q).2 ≠ ConsumeResult.notFound) := by
  refine ⟨fun h => consume_of_detail_none h, ?_, ?_⟩
  · intro h
    apply consume_of_detail_none
    unfold get_food_item_detail
    rw [List.find?_eq_none]
    intro x hx
    simp only [Bool.and_eq_true, beq_iff_eq, not_and]
    intro huser hid
    exact absurd huser (h x hx hid)
  · intro r h
    rw [consume_of_detail_some q h]
    by_cases hle : r.quantity - q ≤ 0
    · rw [if_pos hle]
      simp
    · rw [if_neg hle]
      simp

/-- Counterexample for C8: the claim requires `quantity > 0`, but the code
accepts a negative consumption quantity: consuming `-1` from a lot of
quantity 2 is not rejected — it updates the lot to quantity 3. -/
theorem C8_counterexample :
    consume_item ⟨5, [⟨10, 1, ['m'], ['m'], 2, ['l'], 7⟩]⟩ 1 10 (-1) =
      (⟨5, [⟨10, 1, ['m'], ['m'], 3, ['l'], 7⟩]⟩,
       ConsumeResult.updatedData [⟨10, 1, ['m'], ['m'], 3, ['l'], 7⟩]) := by
  have hdet : get_food_item_detail ⟨5, [⟨10, 1, ['m'], ['m'], 2, ['l'], 7⟩]⟩ 1 10 =
      some ⟨10, 1, ['m'], ['m'], 2, ['l'], 7⟩ := by decide
  rw [consume_of_detail_some (-1) hdet]
  rw [if_neg (by norm_num)]
  simp only [List.map_cons, List.map_nil, List.filter_cons, List.filter_nil]
  norm_num

/-- Witness for C8 (amended): consuming from an id owned by a different user
fails with `NotFound` and leaves the state unchanged. -/
theorem C8_witness :
    consume_item ⟨5, [⟨10, 2, ['m'], ['m'], 2, ['l'], 7⟩]⟩ 1 10 1 =
      (⟨5, [⟨10, 2, ['m'], ['m'], 2, ['l'], 7⟩]⟩, ConsumeResult.notFound) :=
  (C8_consume_notfound_no_positivity ⟨5, [⟨10, 2, ['m'], ['m'], 2, ['l'], 7⟩]⟩ 1 10 1).2.1
    (by decide)

/-- C2 (amended): `consume` never leaves a lot with quantity ≤ 0 — a
consumption that would drive a quantity to 0 or below deletes the lot — and
this holds for every consumption quantity; `addOrMerge`, however, applies no
such guard: positivity of all stored quantities is preserved only when the
reported quantity is itself positive. -/
theorem C2_positive_quantities_preserved (st : StockState) (uid item_id : Nat)
    (item : FoodItemCreate) (q : Rat)
    (hpos : ∀ x ∈ st.rows, 0 < x.quantity) (hq : 0 < item.quantity) :
    (∀ x ∈ (add_or_update_food_item st uid item).1.rows, 0 < x.quantity) ∧
    (∀ x ∈ (consume_item st uid item_id q).1.rows, 0 < x.quantity) := by
  constructor
  · cases hfind : find_existing_food_row st uid item.name item.unit item.expiration_date with
    | none =>
      rw [add_of_find_none hfind]
      intro x hx
      rw [List.mem_append] at hx
      rcases hx with hx | hx
      · exact hpos x hx
      · rw [List.mem_singleton] at hx
        rw [hx]
        exact hq
    | some ex =>
      rw [add_of_find_some hfind]
      intro x hx
      obtain ⟨y, hy, hxy⟩ := List.mem_map.mp hx
      by_cases hyc : (y.id == ex.id && y.user_id == uid) = true
      · rw [if_pos hyc] at hxy
        rw [← hxy]
        have hexmem : ex ∈ st.rows := List.mem_of_find?_eq_some hfind
        exact add_pos (hpos ex hexmem) hq
      · rw [if_neg hyc] at hxy
        rw [← hxy]
        exact hpos y hy
  · cases hdet : get_food_item_detail st uid item_id with
    | none =>
      rw [consume_of_detail_none hdet]
      exact hpos
    | some it =>
      rw [consume_of_detail_some q hdet]
      by_cases hle : it.quantity - q ≤ 0
      · rw [if_pos hle]
        intro x hx
        exact hpos x (List.mem_of_mem_filter hx)
      · rw [if_neg hle]
        intro x hx
        obtain ⟨y, hy, hxy⟩ := List.mem_map.mp hx
        by_cases hyc : (y.id == item_id && y.user_id == uid) = true
        · rw [if_pos hyc] at hxy
          rw [← hxy]
          exact not_le.mp hle
        · rw [if_neg hyc] at hxy
          rw [← hxy]
          exact hpos y hy

/-- Counterexample for C2: `addOrMerge` does not guard quantities — reporting
a fresh item with quantity 0 persists a lot whose quantity is 0, not > 0, and
no deletion takes place. -/
theorem C2_counterexample :
    (add_or_update_food_item ⟨0, []⟩ 1 ⟨['a'], 0, ['g'], 0⟩).1.rows =
      [⟨0, 1, ['a'], ['a'], 0, ['g'], 0⟩] ∧ ¬(0 < (0 : Rat)) := by
  constructor
  · rw [add_of_find_none (by decide)]
    decide
  · decide

/-- Witness for C2 (amended): with a positive reported quantity both
operations keep every stored quantity positive. -/
theorem C2_witness :
    (∀ x ∈ (add_or_update_food_item ⟨1, [⟨0, 1, ['a'], ['a'], 1, ['g'], 4⟩]⟩ 1
        ⟨['b'], 2, ['g'], 4⟩).1.rows, 0 < x.quantity) ∧
    (∀ x ∈ (consume_item ⟨1, [⟨0, 1, ['a'], ['a'], 1, ['g'], 4⟩]⟩ 1 0 5).1.rows,
      0 < x.quantity) :=
  C2_positive_quantities_preserved ⟨1, [⟨0, 1, ['a'], ['a'], 1, ['g'], 4⟩]⟩ 1 0
    ⟨['b'], 2, ['g'], 4⟩ 5 (by decide) (by decide)

/-- C6 (amended): the consolidator performs no input validation — for every
request, even one whose name or unit is empty after trimming or whose quantity
is negative, `addOrMerge` succeeds: when no lot matches the composite key it
inserts a new lot carrying exactly the given (unvalidated) fields and reports
`created`; it never rejects a request as `InvalidInput`.  (Calendar-date
validity alone is enforced upstream by request parsing.) -/
theorem C6_no_input_validation (st : StockState) (uid : Nat) (item : FoodItemCreate)
    (hfind : find_existing_food_row st uid item.name item.unit item.expiration_date = none) :
    add_or_update_food_item st uid item =
      (⟨st.nextId + 1,
        st.rows ++ [⟨st.nextId, uid, item.name, normalize_name item.name,
                     item.quantity, item.unit, item.expiration_date⟩]⟩,
       AddStatus.created) :=
  add_of_find_none hfind

/-- Witness for C6 (amended): a request with empty name, empty unit and
negative quantity is accepted and creates a lot. -/
theorem C6_witness :
    add_or_update_food_item ⟨0, []⟩ 1 ⟨[], -1, [], 0⟩ =
      (⟨1, [⟨0, 1, [], [], -1, [], 0⟩]⟩, AddStatus.created) :=
  C6_no_input_validation ⟨0, []⟩ 1 ⟨[], -1, [], 0⟩ (by decide)

/-- Counterexample for C6: the claim says an input with empty (after trimming)
name and unit and a negative quantity is rejected with no lot created; the
code creates a lot for exactly this input. -/
theorem C6_counterexample :
    (add_or_update_food_item ⟨0, []⟩ 1 ⟨[], -1, [], 0⟩).1.rows =
      [⟨0, 1, [], [], -1, [], 0⟩] := by
  rw [add_of_find_none (by decide)]
  decide

/-- C1: starting from a state with no lot for the composite key
`(uid, normalize(name), unit, expirationDate)`, reporting the same item twice
yields the action sequence created-then-merged (the code's status strings
`"created"`, `"updated"`, the latter being the spec's `merged` action) and
leaves exactly one lot for that key, whose quantity is the sum of the two
reported quantities. -/
theorem C1_consolidation_dedup (st : StockState) (uid : Nat) (item : FoodItemCreate)
    (h : st.rows.filter
        (rowKeyMatch uid (normalize_name item.name) item.unit item.expiration_date) = []) :
    (add_or_update_food_item st uid item).2 = AddStatus.created ∧
    (add_or_update_food_item (add_or_update_food_item st uid item).1 uid item).2 =
      AddStatus.updated ∧
    (add_or_update_food_item (add_or_update_food_item st uid item).1 uid item).1.rows.filter
        (rowKeyMatch uid (normalize_name item.name) item.unit item.expiration_date) =
      [⟨st.nextId, uid, item.name, normalize_name item.name,
        item.quantity + item.quantity, item.unit, item.expiration_date⟩] := by
  have hmiss : ∀ x ∈ st.rows,
      ¬(rowKeyMatch uid (normalize_name item.name) item.unit item.expiration_date x = true) :=
    List.filter_eq_nil_iff.mp h
  have hnone : find_existing_food_row st uid item.name item.unit item.expiration_date = none := by
    unfold find_existing_food_row
    exact List.find?_eq_none.mpr hmiss
  have h1 := add_of_find_none hnone
  have hknew : rowKeyMatch uid (normalize_name item.name) item.unit item.expiration_date
      ⟨st.nextId, uid, item.name, normalize_name item.name,
        item.quantity, item.unit, item.expiration_date⟩ = true := by
    simp [rowKeyMatch]
  have hfind2 : find_existing_food_row
      (⟨st.nextId + 1,
        st.rows ++ [⟨st.nextId, uid, item.name, normalize_name item.name,
                     item.quantity, item.unit, item.expiration_date⟩]⟩ : StockState)
      uid item.name item.unit item.expiration_date =
      some ⟨st.nextId, uid, item.name, normalize_name item.name,
            item.quantity, item.unit, item.expiration_date⟩ := by
    unfold find_existing_food_row
    rw [List.find?_append]
    rw [List.find?_eq_none.mpr hmiss]
    rw [Option.none_or]
    rw [List.find?_cons_of_pos _ hknew]
  refine ⟨by rw [h1], ?_, ?_⟩
  · rw [h1, add_of_find_some hfind2]
  · rw [h1, add_of_find_some hfind2]
    show (List.map _ (st.rows ++ _)).filter _ = _
    rw [List.map_append, List.filter_append, List.filter_map, List.filter_map]
    have hpf : ((rowKeyMatch uid (normalize_name item.name) item.unit item.expiration_date) ∘
        (fun r : FoodRow =>
          if r.id == st.nextId && r.user_id == uid then
            { r with quantity := item.quantity + item.quantity } else r)) =
        rowKeyMatch uid (normalize_name item.name) item.unit item.expiration_date := by
      funext x
      by_cases hc : (x.id == st.nextId && x.user_id == uid) = true
      · simp only [Function.comp_apply, if_pos hc]
        simp [rowKeyMatch]
      · simp only [Function.comp_apply, if_neg hc]
    rw [hpf, h]
    simp [rowKeyMatch]

/-- Witness for C1: reporting `("Milk", 1, "l", day 10)` twice into an empty
inventory creates once, merges once, and leaves one lot of quantity 2. -/
theorem C1_witness :
    (add_or_update_food_item ⟨0, []⟩ 1 ⟨"Milk".toList, 1, ['l'], 10⟩).2 =
      AddStatus.created ∧
    (add_or_update_food_item
        (add_or_update_food_item ⟨0, []⟩ 1 ⟨"Milk".toList, 1, ['l'], 10⟩).1 1
        ⟨"Milk".toList, 1, ['l'], 10⟩).2 = AddStatus.updated ∧
    (add_or_update_food_item
        (add_or_update_food_item ⟨0, []⟩ 1 ⟨"Milk".toList, 1, ['l'], 10⟩).1 1
        ⟨"Milk".toList, 1, ['l'], 10⟩).1.rows.filter
        (rowKeyMatch 1 (normalize_name "Milk".toList) ['l'] 10) =
      [⟨0, 1, "Milk".toList, normalize_name "Milk".toList, 1 + 1, ['l'], 10⟩] :=
  C1_consolidation_dedup ⟨0, []⟩ 1 ⟨"Milk".toList, 1, ['l'], 10⟩ (by decide)

/-- C10: when `addOrMerge` merges into an existing lot, only that lot's
quantity changes — the stored sequence of ids, user ids, display names,
normalized names, units and expiration dates is unchanged (so the display name
keeps the first report's spelling), no row is added or removed, and the id
counter does not advance. -/
theorem C10_merge_frame (st : StockState) (uid : Nat) (item : FoodItemCreate) (ex : FoodRow)
    (hfind : find_existing_food_row st uid item.name item.unit item.expiration_date = some ex) :
    (add_or_update_food_item st uid item).2 = AddStatus.updated ∧
    (add_or_update_food_item st uid item).1.nextId = st.nextId ∧
    (add_or_update_food_item st uid item).1.rows.length = st.rows.length ∧
    (add_or_update_food_item st uid item).1.rows.map (fun r => r.id) =
      st.rows.map (fun r => r.id) ∧
    (add_or_update_food_item st uid item).1.rows.map (fun r => r.user_id) =
      st.rows.map (fun r => r.user_id) ∧
    (add_or_update_food_item st uid item).1.rows.map (fun r => r.name) =
      st.rows.map (fun r => r.name) ∧
    (add_or_update_food_item st uid item).1.rows.map (fun r => r.name_norm) =
      st.rows.map (fun r => r.name_norm) ∧
    (add_or_update_food_item st uid item).1.rows.map (fun r => r.unit) =
      st.rows.map (fun r => r.unit) ∧
    (add_or_update_food_item st uid item).1.rows.map (fun r => r.expiration_date) =
      st.rows.map (fun r => r.expiration_date) := by
  rw [add_of_find_some hfind]
  have key : ∀ {α : Type} (g : FoodRow → α),
      (∀ x : FoodRow, g { x with quantity := ex.quantity + item.quantity } = g x) →
      (st.rows.map fun r =>
        if r.id == ex.id && r.user_id == uid then
          { r with quantity := ex.quantity + item.quantity } else r).map g =
        st.rows.map g := by
    intro α g hg
    rw [List.map_map]
    apply List.map_congr_left
    intro a _
    by_cases hc : (a.id == ex.id && a.user_id == uid) = true
    · simp only [Function.comp_apply, if_pos hc, hg]
    · simp only [Function.comp_apply, if_neg hc]
  exact ⟨rfl, rfl, by simp, key _ (fun x => rfl), key _ (fun x => rfl),
    key _ (fun x => rfl), key _ (fun x => rfl), key _ (fun x => rfl),
    key _ (fun x => rfl)⟩

/-- Witness for C10: merging `" MILK "` (different spelling) into an existing
`"Milk"` lot keeps the original display name and all other fields. -/
theorem C10_witness :
    (add_or_update_food_item ⟨1, [⟨0, 1, "Milk".toList, "milk".toList, 1, ['l'], 10⟩]⟩ 1
        ⟨" MILK ".toList, 1, ['l'], 10⟩).1.rows.map (fun r => r.name) =
      ["Milk".toList] :=
  (C10_merge_frame ⟨1, [⟨0, 1, "Milk".toList, "milk".toList, 1, ['l'], 10⟩]⟩ 1
    ⟨" MILK ".toList, 1, ['l'], 10⟩ ⟨0, 1, "Milk".toList, "milk".toList, 1, ['l'], 10⟩
    (by decide)).2.2.2.2.2.1

/-! ## Matcher lemmas -/

theorem inventoryHasNorm_eq_contains (db : DB) (uid : Nat) (nn : Str) :
    inventoryHasNorm db uid nn = (specInventoryNorms db uid).contains nn := by
  rw [Bool.eq_iff_iff]
  unfold inventoryHasNorm specInventoryNorms get_all_food_items
  simp only [List.any_eq_true, List.contains_eq_any_beq, List.mem_map, beq_iff_eq]
  constructor
  · rintro ⟨r, hr, hrn⟩
    exact ⟨r.name_norm, ⟨r, hr, rfl⟩, hrn.symm⟩
  · rintro ⟨x, ⟨r, hr, hx⟩, hnx⟩
    exact ⟨r, hr, by rw [hx, ← hnx]⟩

theorem spec_branch_eq (db : DB) (uid : Nat) (t d : Str) (ings : List RecipeIngredientRow) :
    (if ings.isEmpty then none
     else if ((ings.filter fun i => !inventoryHasNorm db uid i.name_norm).map
         fun i => i.name).isEmpty then
       some (RecipeSuggestion.feasible t d (ings.map fun i => i.name))
     else
       some (RecipeSuggestion.missing t d
         ((ings.filter fun i => !inventoryHasNorm db uid i.name_norm).map
           fun i => i.name))) =
    specSuggestionFor (specInventoryNorms db uid) t d ings := by
  simp only [inventoryHasNorm_eq_contains]
  unfold specSuggestionFor
  by_cases hempty : ings = []
  · simp [hempty]
  · rw [if_neg (by simp [List.isEmpty_iff, hempty]), if_neg hempty]
    by_cases hall : (ings.all fun i => (specInventoryNorms db uid).contains i.name_norm) = true
    · rw [if_pos hall]
      rw [if_pos (by
        simp only [List.isEmpty_iff, List.map_eq_nil_iff, List.filter_eq_nil_iff]
        intro a ha
        have := List.all_eq_true.mp hall a ha
        simp [List.elem_iff.mp this])]
    · rw [if_neg hall]
      rw [if_neg (by
        simp only [List.isEmpty_iff, List.map_eq_nil_iff, List.filter_eq_nil_iff]
        intro hcontra
        apply hall
        rw [List.all_eq_true]
        intro a ha
        have := hcontra a ha
        simpa using this)]

theorem inventoryHasNorm_revise (db : DB) (qf : FoodRow → Rat) (uf : FoodRow → Str)
    (uid : Nat) (nn : Str) :
    inventoryHasNorm (reviseQuantitiesUnits db qf uf) uid nn =
      inventoryHasNorm db uid nn := by
  unfold inventoryHasNorm get_all_food_items reviseQuantitiesUnits
  rw [List.filter_map, List.any_map]
  have h1 : ((fun r : FoodRow => r.user_id == uid) ∘
      (fun r : FoodRow => { r with quantity := qf r, unit := uf r })) =
      fun r : FoodRow => r.user_id == uid := funext fun r => rfl
  have h2 : ((fun r : FoodRow => r.name_norm == nn) ∘
      (fun r : FoodRow => { r with quantity := qf r, unit := uf r })) =
      fun r : FoodRow => r.name_norm == nn := funext fun r => rfl
  rw [h1, h2]

/-- C4: the matcher is presence-only.  Its output coincides with the
specification function that tests each stored ingredient key for membership in
the set of normalized names of the user's inventory — emitting a feasible
report listing every ingredient display name when all are present, and
otherwise a report of exactly the missing display names; and the output is
invariant under arbitrary rewriting of the quantities and units of the
inventory, which are never compared. -/
theorem C4_matcher_presence_only (db : DB) (uid : Nat) :
    (compute_recipe_suggestions db uid =
      (db.recipes.filter fun r => r.user_id == uid).filterMap fun r =>
        specSuggestionFor (specInventoryNorms db uid) r.title r.description
          (ingredientsFor db r.id)) ∧
    ∀ qf uf, compute_recipe_suggestions (reviseQuantitiesUnits db qf uf) uid =
      compute_recipe_suggestions db uid := by
  constructor
  · unfold compute_recipe_suggestions
    apply filterMap_fun_congr
    intro recipe
    exact spec_branch_eq db uid recipe.title recipe.description (ingredientsFor db recipe.id)
  · intro qf uf
    unfold compute_recipe_suggestions
    have hrec : (reviseQuantitiesUnits db qf uf).recipes = db.recipes := rfl
    have hing : ∀ rid, ingredientsFor (reviseQuantitiesUnits db qf uf) rid =
        ingredientsFor db rid := fun _ => rfl
    simp only [hrec, hing, inventoryHasNorm_revise]

/-- C7: a recipe with zero ingredient rows contributes no suggestion — adding
such a recipe to the database leaves the matcher's output for the user
unchanged (it is skipped, not emitted as trivially feasible). -/
theorem C7_zero_ingredient_recipes_skipped (db : DB) (uid : Nat) (r : RecipeRow)
    (h : db.recipe_ingredients.filter (fun i => i.recipe_id == r.id) = []) :
    compute_recipe_suggestions { db with recipes := db.recipes ++ [r] } uid =
      compute_recipe_suggestions db uid := by
  unfold compute_recipe_suggestions
  have h1 : ({ db with recipes := db.recipes ++ [r] } : DB).recipes = db.recipes ++ [r] := rfl
  have h2 : ∀ rid, ingredientsFor { db with recipes := db.recipes ++ [r] } rid =
      ingredientsFor db rid := fun _ => rfl
  have h3 : ∀ nn, inventoryHasNorm { db with recipes := db.recipes ++ [r] } uid nn =
      inventoryHasNorm db uid nn := fun _ => rfl
  simp only [h1, h2, h3]
  rw [List.filter_append, List.filterMap_append]
  have hing : ingredientsFor db r.id = [] := h
  by_cases hr : (r.user_id == uid) = true
  · rw [show List.filter (fun x : RecipeRow => x.user_id == uid) [r] = [r] from by simp [hr]]
    simp [hing]
  · rw [show List.filter (fun x : RecipeRow => x.user_id == uid) [r] = [] from by simp [hr]]
    simp

/-- Witness for C7: adding an ingredient-less recipe to a database with one
feasible recipe does not change the suggestions. -/
theorem C7_witness :
    compute_recipe_suggestions
      { food_stock := [⟨0, 1, ['a'], ['a'], 1, ['g'], 4⟩],
        recipes := [⟨0, 1, ['t'], ['d']⟩] ++ [⟨1, 1, ['u'], ['e']⟩],
        recipe_ingredients := [⟨0, ['a'], ['a'], 1, ['g']⟩] } 1 =
    compute_recipe_suggestions
      { food_stock := [⟨0, 1, ['a'], ['a'], 1, ['g'], 4⟩],
        recipes := [⟨0, 1, ['t'], ['d']⟩],
        recipe_ingredients := [⟨0, ['a'], ['a'], 1, ['g']⟩] } 1 :=
  C7_zero_ingredient_recipes_skipped
    { food_stock := [⟨0, 1, ['a'], ['a'], 1, ['g'], 4⟩],
      recipes := [⟨0, 1, ['t'], ['d']⟩],
      recipe_ingredients := [⟨0, ['a'], ['a'], 1, ['g']⟩] } 1 ⟨1, 1, ['u'], ['e']⟩
    (by decide)

/-- Witness for C4: rewriting every inventory quantity and unit leaves the
suggestions unchanged on a concrete database. -/
theorem C4_witness :
    compute_recipe_suggestions
      (reviseQuantitiesUnits
        { food_stock := [⟨0, 1, ['a'], ['a'], 1, ['g'], 4⟩],
          recipes := [⟨0, 1, ['t'], ['d']⟩],
          recipe_ingredients := [⟨0, ['a'], ['a'], 2, ['k']⟩] }
        (fun _ => 99) (fun _ => ['z'])) 1 =
    compute_recipe_suggestions
      { food_stock := [⟨0, 1, ['a'], ['a'], 1, ['g'], 4⟩],
        recipes := [⟨0, 1, ['t'], ['d']⟩],
        recipe_ingredients := [⟨0, ['a'], ['a'], 2, ['k']⟩] } 1 :=
  (C4_matcher_presence_only
    { food_stock := [⟨0, 1, ['a'], ['a'], 1, ['g'], 4⟩],
      recipes := [⟨0, 1, ['t'], ['d']⟩],
      recipe_ingredients := [⟨0, ['a'], ['a'], 2, ['k']⟩] } 1).2
    (fun _ => 99) (fun _ => ['z'])

end WasteLess
